import Mathlib

/-!
Shallow embedding of `src/transform.py` (the declarative data-extraction
engine): the recursive `transform` evaluator, its four specification shapes
(mapping, sequence, path-string, extractor function), the dotted-path
resolver, and the built-in extractors `rename`, `split`, `mask`, `nullable`.

Python values are modelled by `Value`; Python dicts by ordered association
lists (insertion order preserved, update replaces in place, which matches
CPython dict semantics). Python exceptions are modelled by `Err`: the
repository's own taxonomy (`TransformationTypeMismatch`,
`TransformationFieldMissing`, `TransformationMalformed`) plus the native
Python exceptions the code can raise (`TypeError`, `AttributeError`,
`KeyError`, `ValueError`), which are outside the documented taxonomy.
-/

namespace TransformPy

/-- A Python value as the engine sees it: `None`, an int, a string, a list,
or a dict with string keys (the engine only ever indexes dicts by strings). -/
inductive Value where
  | vNull
  | vInt (n : Int)
  | vStr (s : String)
  | vList (items : List Value)
  | vDict (entries : List (String × Value))

/-- A Python dict from string keys to values, as returned by `transform`. -/
abbrev ResultMap := List (String × Value)

/-- The errors the code can raise.  The first four model the repository's
`TransformationException` subclasses; the `py...` constructors model native
Python exceptions that escape the documented taxonomy. -/
inductive Err where
  | typeMismatch (locator : String) (expected : String)
  | typeMismatchSpec (expected : String)
  | fieldMissing (locator : String)
  | malformed
  | pyTypeError (msg : String)
  | pyAttributeError (attr : String)
  | pyKeyError (key : String)
  | pyKeyErrorSpec
  | pyValueError (msg : String)
deriving DecidableEq

/-- Dict lookup (`m.get(k)`), first binding wins; well-formed dicts have
unique keys so the choice is immaterial there. -/
def alookup (k : String) : List (String × Value) → Option Value
  | [] => none
  | (k', v) :: rest => if k = k' then some v else alookup k rest

/-- Python `d[k] = v` on an ordered dict: replace in place if the key is
present, append otherwise. -/
def insertRM : ResultMap → String × Value → ResultMap
  | [], e => [e]
  | (k', v') :: rest, (k, v) =>
      if k' = k then (k, v) :: rest else (k', v') :: insertRM rest (k, v)

/-- Python `a.update(b)`: fold each binding of `b` into `a`, later bindings
overwriting earlier ones (last-write-wins). -/
def updateRM : ResultMap → ResultMap → ResultMap
  | a, [] => a
  | a, e :: rest => updateRM (insertRM a e) rest

/-- `isinstance(data, dict)`. -/
def Value.isDict : Value → Bool
  | .vDict _ => true
  | _ => false

/-- `isinstance(v, str)`. -/
def Value.isStr : Value → Bool
  | .vStr _ => true
  | _ => false

/-- Infix (substring) test on character lists, used to model Python's
`needle in haystack` for strings. -/
def containsSub (needle : List Char) : List Char → Bool
  | [] => needle.isEmpty
  | c :: rest => needle.isPrefixOf (c :: rest) || containsSub needle rest

/-- Python membership `key in data` for a string key: key lookup on dicts,
element equality on lists, substring test on strings, and a native
`TypeError` on non-iterable values (`int`, `None`). -/
def pyContains (key : String) : Value → Except Err Bool
  | .vDict es => .ok (alookup key es).isSome
  | .vList items =>
      .ok (items.any fun v => match v with | .vStr s => s = key | _ => false)
  | .vStr s => .ok (containsSub key.data s.data)
  | .vInt _ => .error (.pyTypeError "argument of type int is not iterable")
  | .vNull => .error (.pyTypeError "argument of type NoneType is not iterable")

/-- Python subscription `data[key]` for a string key: dict lookup
(`KeyError` when absent) and a native `TypeError` on every non-dict value. -/
def pyIndexStr (data : Value) (key : String) : Except Err Value :=
  match data with
  | .vDict es =>
      match alookup key es with
      | some v => .ok v
      | none => .error (.pyKeyError key)
  | .vList _ => .error (.pyTypeError "list indices must be integers or slices, not str")
  | .vStr _ => .error (.pyTypeError "string indices must be integers")
  | .vInt _ => .error (.pyTypeError "int object is not subscriptable")
  | .vNull => .error (.pyTypeError "NoneType object is not subscriptable")

/-- Accumulator for splitting a character list on the dot character; models
Python's `str.split(".")` (so `"a..b"` gives `["a", "", "b"]` and `""`
gives `[""]`). -/
def splitDotsAux : List Char → List Char → List String
  | [], acc => [String.mk acc.reverse]
  | c :: rest, acc =>
      if c = '.' then String.mk acc.reverse :: splitDotsAux rest []
      else splitDotsAux rest (c :: acc)

/-- `transformation.split(".")`. -/
def splitDots (s : String) : List String := splitDotsAux s.data []

/-- The segment-walking loop of `_transform_string` (lines 46-53): walk the
dot-segments left to right; a non-dict cursor is a `TransformationTypeMismatch`
naming the segment; a missing key is `{original: None}` under nullable mode
and a `TransformationFieldMissing` naming the segment otherwise. -/
def walkSteps (steps : List String) (data : Value) (original : String)
    (nullable : Bool) : Except Err ResultMap :=
  match steps with
  | [] => .ok [(original, data)]
  | step :: rest =>
      match data with
      | .vDict es =>
          match alookup step es with
          | some v => walkSteps rest v original nullable
          | none =>
              if nullable then .ok [(original, .vNull)]
              else .error (.fieldMissing step)
      | _ => .error (.typeMismatch step "dict")

/-- `_transform_string`: dotted paths go through the segment walk; a path
with no dot takes the special-cased branch of lines 57-62, whose membership
test and subscription follow native Python semantics on non-dict data. -/
def transformString (transformation : String) (data : Value)
    (nullable : Bool) : Except Err ResultMap :=
  if '.' ∈ transformation.data then
    walkSteps (splitDots transformation) data transformation nullable
  else
    match pyContains transformation data with
    | .error e => .error e
    | .ok false =>
        if nullable then .ok [(transformation, .vNull)]
        else .error (.fieldMissing transformation)
    | .ok true =>
        match pyIndexStr data transformation with
        | .error e => .error e
        | .ok v => .ok [(transformation, v)]

/-- A transformation specification, the four shapes `transform` dispatches
on (dict, list, string, callable) plus the catch-all that triggers
`TransformationMalformed`.  The callable payload is the Extractor Contract:
a function from an input value to a result map (or an exception).
Python dict keys must be hashable, so an `sObj` or `sList` can never occur
in key position of an `sObj` in the real program; the type does not forbid
it, and `specIndex` documents the choice made for that unreachable case. -/
inductive TransformSpec where
  | sField (path : String)
  | sObj (entries : List (TransformSpec × TransformSpec))
  | sList (items : List TransformSpec)
  | sFunc (f : Value → Except Err ResultMap)
  | sMalformed

/-- Python subscription `m[k]` where `m` is a result dict (string keys) and
`k` is the key-spec object itself (`transform.py` line 27): a string key is
an ordinary dict lookup (`KeyError` when absent); any other spec is not a
string and result-map keys are all strings, so lookup misses and Python
raises a `KeyError` on the spec object. -/
def specIndex (m : ResultMap) : TransformSpec → Except Err Value
  | .sField s =>
      match alookup s m with
      | some v => .ok v
      | none => .error (.pyKeyError s)
  | _ => .error .pyKeyErrorSpec

mutual

/-- The evaluator `transform` (lines 65-77): dispatch on the shape of the
specification — dict, list, string, callable, otherwise
`TransformationMalformed`.  A callable is invoked directly on the input,
bypassing the nullable flag. -/
def transform (transformation : TransformSpec) (data : Value)
    (nullable : Bool) : Except Err ResultMap :=
  match transformation with
  | .sObj entries => transformDict entries data nullable
  | .sList items => transformList items data nullable
  | .sField s => transformString s data nullable
  | .sFunc f => f data
  | .sMalformed => .error .malformed

/-- `_transform_dict` (lines 21-29): non-dict input is a
`TransformationTypeMismatch` (raised with the whole spec as locator);
otherwise fold the entries into an empty accumulator. -/
def transformDict (entries : List (TransformSpec × TransformSpec))
    (data : Value) (nullable : Bool) : Except Err ResultMap :=
  if data.isDict then transformDictEntries entries data nullable []
  else .error (.typeMismatchSpec "dict")

/-- The entry loop of `_transform_dict` (lines 26-27):
`accumulator.update(transform(v, transform(k, data, nullable)[k], nullable))`
for each `(k, v)` in declaration order. -/
def transformDictEntries (entries : List (TransformSpec × TransformSpec))
    (data : Value) (nullable : Bool) (accumulator : ResultMap) :
    Except Err ResultMap :=
  match entries with
  | [] => .ok accumulator
  | (k, v) :: rest =>
      match transform k data nullable with
      | .error e => .error e
      | .ok km =>
          match specIndex km k with
          | .error e => .error e
          | .ok x =>
              match transform v x nullable with
              | .error e => .error e
              | .ok r => transformDictEntries rest data nullable (updateRM accumulator r)

/-- `_transform_list` (lines 32-40): the input must be a dict (the source
checks `isinstance(data, dict)` even here) or a `TransformationTypeMismatch`
is raised; otherwise fold the item-specs into an empty accumulator. -/
def transformList (items : List TransformSpec) (data : Value)
    (nullable : Bool) : Except Err ResultMap :=
  if data.isDict then transformListItems items data nullable []
  else .error (.typeMismatchSpec "dict")

/-- The item loop of `_transform_list` (lines 37-38):
`accumulator.update(transform(extract, data, nullable))` for each item in
declaration order, every item seeing the same unmodified input. -/
def transformListItems (items : List TransformSpec) (data : Value)
    (nullable : Bool) (accumulator : ResultMap) : Except Err ResultMap :=
  match items with
  | [] => .ok accumulator
  | extract :: rest =>
      match transform extract data nullable with
      | .error e => .error e
      | .ok r => transformListItems rest data nullable (updateRM accumulator r)

end

/-- The Extractor Contract: a function from an input value to a result map. -/
abbrev Extractor := Value → Except Err ResultMap

/-- `rename(old, new)` (lines 85-88): resolve `old` non-nullably, re-key the
single result under `new`. -/
def rename (old : String) (new : String) : Extractor := fun data =>
  match transform (.sField old) data false with
  | .error e => .error e
  | .ok m =>
      match pyIndexStr (.vDict m) old with
      | .error e => .error e
      | .ok v => .ok [(new, v)]

/-- `split(field, delimiter)` (lines 91-94): resolve `field` non-nullably
and call `.split(delimiter)` on the value.  A non-string value has no
`split` attribute, so Python raises a native `AttributeError`; an empty
delimiter raises `ValueError` (`str.split` semantics). -/
def split (field : String) (delimiter : String) : Extractor := fun data =>
  match transform (.sField field) data false with
  | .error e => .error e
  | .ok m =>
      match pyIndexStr (.vDict m) field with
      | .error e => .error e
      | .ok (.vStr s) =>
          if delimiter = "" then .error (.pyValueError "empty separator")
          else .ok [(field, .vList ((s.splitOn delimiter).map .vStr))]
      | .ok _ => .error (.pyAttributeError "split")

/-- `mask(field, pattern, replace)` (lines 97-101): resolve `field`
non-nullably and apply `re.sub(pattern, replace, value)`.  `re.sub` is
Python standard-library code external to this repository, so it is taken
as an uninterpreted substitution function `reSub`; on a non-string value
`re.sub` raises a native `TypeError`. -/
def mask (reSub : String → String → String → String) (field : String)
    (pattern : String) (replace : String) : Extractor := fun data =>
  match transform (.sField field) data false with
  | .error e => .error e
  | .ok m =>
      match pyIndexStr (.vDict m) field with
      | .error e => .error e
      | .ok (.vStr s) => .ok [(field, .vStr (reSub pattern replace s))]
      | .ok _ => .error (.pyTypeError "expected string or bytes-like object")

/-- `nullable(field, nullable=True)` (lines 104-107): re-invoke the
evaluator on `field` with the nullable flag forced to `flag`, ignoring the
ambient flag of the enclosing call. -/
def nullable (field : String) (flag : Bool) : Extractor := fun data =>
  transform (.sField field) data flag

/-- Specification-side path walk (for stating claims): follow each
dot-segment left to right into nested dicts, yielding the reached value
when every segment resolves. -/
def followPath : List String → Value → Option Value
  | [], v => some v
  | s :: rest, v =>
      match v with
      | .vDict es =>
          match alookup s es with
          | some v' => followPath rest v'
          | none => none
      | _ => none

/-- Specification-side detection of a missing field: walk the dot-segments
through nested dicts and return the first segment whose key is absent from
the dict the cursor has reached (a non-dict cursor is a type mismatch, not
a missing field, and yields `none`). -/
def firstMissing : List String → Value → Option String
  | [], _ => none
  | s :: rest, v =>
      match v with
      | .vDict es =>
          match alookup s es with
          | some v' => firstMissing rest v'
          | none => some s
      | _ => none

/-- Python dict equality on result maps: same lookup at every key (dict
equality in Python ignores insertion order). -/
def RMEquiv (a b : ResultMap) : Prop := ∀ k, alookup k a = alookup k b

/-! Helper lemmas about the dotted-path machinery. -/

theorem stringMk_data (s : String) : String.mk s.data = s := by
  cases s
  rfl

theorem splitDotsAux_no_dot (l : List Char) :
    ∀ acc : List Char, '.' ∉ l → splitDotsAux l acc = [String.mk (acc.reverse ++ l)] := by
  induction l with
  | nil =>
      intro acc _
      simp [splitDotsAux]
  | cons c rest ih =>
      intro acc h
      have hc : ¬ c = '.' := fun hc => h (hc ▸ List.mem_cons_self c rest)
      have hrest : '.' ∉ rest := fun hr => h (List.mem_cons_of_mem c hr)
      simp only [splitDotsAux, if_neg hc]
      rw [ih (c :: acc) hrest]
      simp

theorem splitDots_no_dot (p : String) (h : '.' ∉ p.data) : splitDots p = [p] := by
  unfold splitDots
  rw [splitDotsAux_no_dot p.data [] h]
  simp [stringMk_data]

theorem walkSteps_ok (steps : List String) :
    ∀ (d : Value) (orig : String) (nb : Bool) (v : Value),
      followPath steps d = some v → walkSteps steps d orig nb = .ok [(orig, v)] := by
  induction steps with
  | nil =>
      intro d orig nb v h
      simp [followPath] at h
      simp [walkSteps, h]
  | cons s rest ih =>
      intro d orig nb v h
      cases d with
      | vDict es =>
          cases hl : alookup s es with
          | some v' =>
              rw [followPath] at h
              simp only [hl] at h
              simp only [walkSteps, hl]
              exact ih v' orig nb v h
          | none =>
              rw [followPath] at h
              simp [hl] at h
      | vNull => simp [followPath] at h
      | vInt n => simp [followPath] at h
      | vStr s' => simp [followPath] at h
      | vList items => simp [followPath] at h

theorem walkSteps_missing (steps : List String) :
    ∀ (d : Value) (orig : String) (s : String),
      firstMissing steps d = some s →
      walkSteps steps d orig false = .error (.fieldMissing s) ∧
      walkSteps steps d orig true = .ok [(orig, .vNull)] := by
  induction steps with
  | nil =>
      intro d orig s h
      simp [firstMissing] at h
  | cons st rest ih =>
      intro d orig s h
      cases d with
      | vDict es =>
          cases hl : alookup st es with
          | some v' =>
              rw [firstMissing] at h
              simp only [hl] at h
              simp only [walkSteps, hl]
              exact ih v' orig s h
          | none =>
              rw [firstMissing] at h
              simp only [hl, Option.some.injEq] at h
              subst h
              simp [walkSteps, hl]
      | vNull => simp [firstMissing] at h
      | vInt n => simp [firstMissing] at h
      | vStr s' => simp [firstMissing] at h
      | vList items => simp [firstMissing] at h

theorem transformString_ok (p : String) (d v : Value) (nb : Bool)
    (h : followPath (splitDots p) d = some v) :
    transformString p d nb = .ok [(p, v)] := by
  by_cases hdot : '.' ∈ p.data
  · simp only [transformString, if_pos hdot]
    exact walkSteps_ok _ d p nb v h
  · rw [splitDots_no_dot p hdot] at h
    cases d with
    | vDict es =>
        rw [followPath] at h
        cases hl : alookup p es with
        | some v' =>
            simp only [hl, followPath] at h
            simp [transformString, if_neg hdot, pyContains, hl, pyIndexStr, h]
        | none => simp [hl] at h
    | vNull => simp [followPath] at h
    | vInt n => simp [followPath] at h
    | vStr s' => simp [followPath] at h
    | vList items => simp [followPath] at h

theorem transformString_missing (p : String) (d : Value) (s : String)
    (h : firstMissing (splitDots p) d = some s) :
    transformString p d false = .error (.fieldMissing s) ∧
    transformString p d true = .ok [(p, .vNull)] := by
  by_cases hdot : '.' ∈ p.data
  · simp only [transformString, if_pos hdot]
    exact walkSteps_missing _ d p s h
  · rw [splitDots_no_dot p hdot] at h
    cases d with
    | vDict es =>
        rw [firstMissing] at h
        cases hl : alookup p es with
        | some v' =>
            simp only [hl, firstMissing] at h
            exact absurd h (by simp)
        | none =>
            simp only [hl, Option.some.injEq] at h
            subst h
            simp [transformString, if_neg hdot, pyContains, hl]
    | vNull => simp [firstMissing] at h
    | vInt n => simp [firstMissing] at h
    | vStr s' => simp [firstMissing] at h
    | vList items => simp [firstMissing] at h

theorem transform_sField (p : String) (d : Value) (nb : Bool) :
    transform (.sField p) d nb = transformString p d nb := by
  rw [transform]

/-! Helper lemmas about result-map update (Python `dict.update`). -/

/-- Left-biased choice on options, the shape `alookup` takes on appends. -/
def optOr : Option Value → Option Value → Option Value
  | some v, _ => some v
  | none, o => o

theorem optOr_none_left (o : Option Value) : optOr none o = o := rfl

theorem optOr_some_left (v : Value) (o : Option Value) : optOr (some v) o = some v := rfl

theorem alookup_insertRM (k : String) (m : ResultMap) (k' : String) (v : Value) :
    alookup k (insertRM m (k', v)) = if k = k' then some v else alookup k m := by
  induction m with
  | nil => simp [insertRM, alookup]
  | cons e rest ih =>
      obtain ⟨ke, ve⟩ := e
      by_cases hke : ke = k'
      · subst hke
        by_cases hk : k = ke <;> simp [insertRM, alookup, hk]
      · simp only [insertRM, if_neg hke, alookup, ih]
        by_cases hk : k = ke
        · have hk2 : ¬ k = k' := fun h => hke ((hk.symm).trans h)
          simp [hk, hk2, hke]
        · simp [hk]

theorem alookup_append (k : String) (a b : ResultMap) :
    alookup k (a ++ b) = optOr (alookup k a) (alookup k b) := by
  induction a with
  | nil => simp [alookup, optOr]
  | cons e rest ih =>
      obtain ⟨ke, ve⟩ := e
      by_cases hk : k = ke
      · simp [alookup, hk, optOr]
      · simp [alookup, hk, ih]

theorem alookup_updateRM (k : String) (b : ResultMap) :
    ∀ a : ResultMap, alookup k (updateRM a b) = optOr (alookup k b.reverse) (alookup k a) := by
  induction b with
  | nil => intro a; simp [updateRM, alookup, optOr]
  | cons e rest ih =>
      intro a
      obtain ⟨ke, ve⟩ := e
      rw [updateRM, ih]
      simp only [List.reverse_cons, alookup_append]
      rw [alookup_insertRM]
      by_cases hk : k = ke
      · subst hk
        cases alookup k rest.reverse <;> simp [alookup, optOr]
      · cases alookup k rest.reverse <;> simp [alookup, hk, optOr]

theorem alookup_eq_none_iff (k : String) (m : ResultMap) :
    alookup k m = none ↔ k ∉ m.map Prod.fst := by
  induction m with
  | nil => simp [alookup]
  | cons e rest ih =>
      obtain ⟨ke, ve⟩ := e
      by_cases hk : k = ke
      · subst hk
        simp [alookup]
      · simp [alookup, hk, ih]

theorem alookup_reverse_none (k : String) (m : ResultMap) :
    alookup k m.reverse = none ↔ alookup k m = none := by
  rw [alookup_eq_none_iff, alookup_eq_none_iff, List.map_reverse]
  simp

theorem RMEquiv_refl (a : ResultMap) : RMEquiv a a := fun _ => rfl

theorem RMEquiv_updateRM_congr (a b m : ResultMap) (h : RMEquiv a b) :
    RMEquiv (updateRM a m) (updateRM b m) := by
  intro k
  rw [alookup_updateRM, alookup_updateRM, h k]

theorem RMEquiv_updateRM_comm (a m₁ m₂ : ResultMap)
    (h : ∀ k, alookup k m₁ = none ∨ alookup k m₂ = none) :
    RMEquiv (updateRM (updateRM a m₁) m₂) (updateRM (updateRM a m₂) m₁) := by
  intro k
  rw [alookup_updateRM, alookup_updateRM, alookup_updateRM, alookup_updateRM]
  rcases h k with h1 | h2
  · rw [(alookup_reverse_none k m₁).mpr h1]
    cases alookup k m₂.reverse <;> simp [optOr]
  · rw [(alookup_reverse_none k m₂).mpr h2]
    cases alookup k m₁.reverse <;> simp [optOr]

/-! Helper lemmas about the sequence-spec loop, for the order-independence
claim. -/

/-- The result map an item-spec produces (empty on the error path; only
used under hypotheses that rule the error path out). -/
def resOf (data : Value) (nb : Bool) (s : TransformSpec) : ResultMap :=
  match transform s data nb with
  | .ok m => m
  | .error _ => []

/-- Key-disjointness of the result maps of two item-specs. -/
def DisjointRes (data : Value) (nb : Bool) (s t : TransformSpec) : Prop :=
  ∀ k, alookup k (resOf data nb s) = none ∨ alookup k (resOf data nb t) = none

theorem DisjointRes_symm (data : Value) (nb : Bool) :
    Symmetric (DisjointRes data nb) := by
  intro s t h k
  exact (h k).symm

theorem transformListItems_ok_each (items : List TransformSpec) (data : Value)
    (nb : Bool) :
    ∀ (acc r : ResultMap), transformListItems items data nb acc = .ok r →
      ∀ s ∈ items, ∃ m, transform s data nb = .ok m := by
  induction items with
  | nil => intro acc r _ s hs; exact absurd hs (List.not_mem_nil s)
  | cons x rest ih =>
      intro acc r h s hs
      rw [transformListItems] at h
      cases hx : transform x data nb with
      | error e => rw [hx] at h; exact absurd h (by simp)
      | ok m =>
          rw [hx] at h
          rcases List.mem_cons.mp hs with hsx | hsr
          · exact ⟨m, hsx ▸ hx⟩
          · exact ih _ r h s hsr

theorem transformListItems_fold (items : List TransformSpec) (data : Value)
    (nb : Bool) :
    ∀ (acc r : ResultMap), transformListItems items data nb acc = .ok r →
      r = items.foldl (fun a s => updateRM a (resOf data nb s)) acc := by
  induction items with
  | nil =>
      intro acc r h
      rw [transformListItems] at h
      cases h
      simp
  | cons x rest ih =>
      intro acc r h
      rw [transformListItems] at h
      cases hx : transform x data nb with
      | error e => rw [hx] at h; exact absurd h (by simp)
      | ok m =>
          rw [hx] at h
          simp only [List.foldl_cons, resOf, hx]
          exact ih _ r h

theorem foldUpd_congr (data : Value) (nb : Bool) (l : List TransformSpec) :
    ∀ (a b : ResultMap), RMEquiv a b →
      RMEquiv (l.foldl (fun a s => updateRM a (resOf data nb s)) a)
        (l.foldl (fun a s => updateRM a (resOf data nb s)) b) := by
  induction l with
  | nil => intro a b h; exact h
  | cons x rest ih =>
      intro a b h
      simp only [List.foldl_cons]
      exact ih _ _ (RMEquiv_updateRM_congr a b _ h)

theorem foldUpd_perm (data : Value) (nb : Bool) {l₁ l₂ : List TransformSpec}
    (hp : l₁.Perm l₂) :
    l₁.Pairwise (DisjointRes data nb) →
    ∀ acc : ResultMap,
      RMEquiv (l₁.foldl (fun a s => updateRM a (resOf data nb s)) acc)
        (l₂.foldl (fun a s => updateRM a (resOf data nb s)) acc) := by
  induction hp with
  | nil => intro _ acc; exact RMEquiv_refl acc
  | cons x hperm ih =>
      intro hd acc
      simp only [List.foldl_cons]
      exact ih (List.Pairwise.of_cons hd) _
  | swap x y l =>
      intro hd acc
      simp only [List.foldl_cons]
      apply foldUpd_congr
      exact RMEquiv_updateRM_comm acc _ _ ((List.pairwise_cons.mp hd).1 x (List.mem_cons_self x l))
  | trans h12 h23 ih12 ih23 =>
      intro hd acc
      have hd2 := (h12.pairwise_iff (fun hxy => DisjointRes_symm data nb hxy)).mp hd
      intro k
      exact (ih12 hd acc k).trans (ih23 hd2 acc k)

/-! The claims. -/

/-- C1: for every dotted path-string `p` and nested mapping `m` in which
every segment of `p` resolves, `transform(p, m, false)` returns the
one-entry map `{p: v}` where `v` is the value reached by following each
dot-segment of `p` left to right into `m`, and the destination key is the
entire original dotted string, never the final segment alone. -/
theorem claim1_field_resolution (p : String) (m v : Value)
    (_hdot : '.' ∈ p.data) (hres : followPath (splitDots p) m = some v) :
    transform (.sField p) m false = .ok [(p, v)] := by
  rw [transform_sField]
  exact transformString_ok p m v false hres

/-- Witness for C1 at `p = "a.b.c"`. -/
theorem claim1_witness :
    transform (.sField "a.b.c")
      (.vDict [("a", .vDict [("b", .vDict [("c", .vInt 7)])])]) false
      = .ok [("a.b.c", .vInt 7)] :=
  claim1_field_resolution "a.b.c" _ (.vInt 7) (by decide) (by rfl)

/-- C2: for every path-string `p` and mapping `m` where every intermediate
segment resolves to a mapping but some segment's key is absent,
`transform(p, m, false)` raises the missing-field error naming the first
unresolved segment, and `transform(p, m, true)` returns `{p: null}`. -/
theorem claim2_field_missing (p : String) (m : Value) (s : String)
    (h : firstMissing (splitDots p) m = some s) :
    transform (.sField p) m false = .error (.fieldMissing s) ∧
    transform (.sField p) m true = .ok [(p, .vNull)] := by
  rw [transform_sField, transform_sField]
  exact transformString_missing p m s h

/-- Witness for C2 at `p = "a.b"` against `{"a": {}}`. -/
theorem claim2_witness :
    transform (.sField "a.b") (.vDict [("a", .vDict [])]) false
      = .error (.fieldMissing "b") ∧
    transform (.sField "a.b") (.vDict [("a", .vDict [])]) true
      = .ok [("a.b", .vNull)] :=
  claim2_field_missing "a.b" (.vDict [("a", .vDict [])]) "b" (by rfl)

/-- C5: for every `ObjectSpec` or `ListSpec` and every non-mapping input,
`transform` fails with the type-mismatch error regardless of the nullable
flag, even when every item-spec is an extractor or a plain field lookup:
the `isinstance(data, dict)` check precedes everything else. -/
theorem claim5_composite_type_mismatch (entries : List (TransformSpec × TransformSpec))
    (items : List TransformSpec) (d : Value) (nb : Bool) (h : d.isDict = false) :
    transform (.sObj entries) d nb = .error (.typeMismatchSpec "dict") ∧
    transform (.sList items) d nb = .error (.typeMismatchSpec "dict") := by
  constructor
  · simp [transform, transformDict, h]
  · simp [transform, transformList, h]

/-- Witness for C5: scalar input `3`, nullable mode on, where the item-specs
are a plain field lookup and an extractor. -/
theorem claim5_witness :
    transform (.sObj [(.sField "a", .sField "b")]) (.vInt 3) true
      = .error (.typeMismatchSpec "dict") ∧
    transform (.sList [.sFunc (rename "a" "b")]) (.vInt 3) true
      = .error (.typeMismatchSpec "dict") :=
  claim5_composite_type_mismatch [(.sField "a", .sField "b")]
    [.sFunc (rename "a" "b")] (.vInt 3) true (by rfl)

/-- C8: the nullable override extractor forces its own flag over the
ambient one: on an input where `f` is missing, `nullable(f, false)` raises
the missing-field error under any ambient flag, and `nullable(f, true)`
yields `{f: null}` under any ambient flag. -/
theorem claim8_nullable_override (f : String) (d : Value) (s : String) (amb : Bool)
    (h : firstMissing (splitDots f) d = some s) :
    transform (.sFunc (nullable f false)) d amb = .error (.fieldMissing s) ∧
    transform (.sFunc (nullable f true)) d amb = .ok [(f, .vNull)] := by
  have hm := transformString_missing f d s h
  constructor
  · simp only [transform, nullable, transform_sField]
    exact hm.1
  · simp only [transform, nullable, transform_sField]
    exact hm.2

/-- Witness for C8: the spec's own example, `f = "a"` against `{}` with
ambient flag `true` (for the false override) and `false` (for the true
override). -/
theorem claim8_witness :
    transform (.sFunc (nullable "a" false)) (.vDict []) true
      = .error (.fieldMissing "a") ∧
    transform (.sFunc (nullable "a" true)) (.vDict []) false
      = .ok [("a", .vNull)] :=
  ⟨(claim8_nullable_override "a" (.vDict []) "a" true (by rfl)).1,
   (claim8_nullable_override "a" (.vDict []) "a" false (by rfl)).2⟩

/-- C10: an `ObjectSpec` entry whose key-spec is a callable (so its resolved
destination key is not the key-spec object itself) makes `transform` index
the intermediate result dict with the callable, raising an untyped
`KeyError` outside the documented taxonomy; in practice `ObjectSpec` keys
must be path-strings. -/
theorem claim10_callable_key (f : Extractor) (vs : TransformSpec)
    (rest : List (TransformSpec × TransformSpec)) (es : List (String × Value))
    (nb : Bool) (m : ResultMap) (hf : f (.vDict es) = .ok m) :
    transform (.sObj ((.sFunc f, vs) :: rest)) (.vDict es) nb
      = .error .pyKeyErrorSpec := by
  simp [transform, transformDict, transformDictEntries, hf, specIndex, Value.isDict]

/-- Witness for C10: `rename` used in key position. -/
theorem claim10_witness :
    transform (.sObj [(.sFunc (rename "a" "b"), .sField "c")])
      (.vDict [("a", .vInt 1)]) false = .error .pyKeyErrorSpec :=
  claim10_callable_key (rename "a" "b") (.sField "c") [] [("a", .vInt 1)]
    false [("b", .vInt 1)]
    (by simp [rename, transform, transformString, pyContains, pyIndexStr, alookup])

/-- C4 counterexample: on the non-mapping input `[]` with nullable mode on,
the no-dot branch of `_transform_string` returns `{"a": null}`, while the
general segment-walking algorithm (`walkSteps`, the dotted branch) raises
the type-mismatch error regardless of the nullable flag — so the claimed
equivalence of the special case with the general algorithm fails, and
nullable mode did convert a would-be type mismatch into a null result. -/
theorem claim4_counterexample :
    transform (.sField "a") (.vList []) true = .ok [("a", .vNull)] ∧
    walkSteps ["a"] (.vList []) "a" true = .error (.typeMismatch "a" "dict") := by
  constructor
  · simp [transform, transformString, pyContains]
  · rfl

/-- C4 amended: for a no-dot path `p`, `_transform_string` applies native
Python membership semantics to the input instead of the segment walk: a
sequence input not containing `p` yields the missing-field error, or
`{p: null}` under nullable mode (never a type mismatch), and a non-iterable
input such as an int raises a native `TypeError`, not the taxonomy
type-mismatch. -/
theorem claim4_single_segment_amended :
    (∀ (p : String) (items : List Value) (nb : Bool),
        '.' ∉ p.data →
        (items.any fun v => match v with | .vStr s => s = p | _ => false) = false →
        transform (.sField p) (.vList items) nb =
          if nb then .ok [(p, .vNull)] else .error (.fieldMissing p)) ∧
    (∀ (p : String) (n : Int) (nb : Bool), '.' ∉ p.data →
        transform (.sField p) (.vInt n) nb =
          .error (.pyTypeError "argument of type int is not iterable")) := by
  constructor
  · intro p items nb hdot hmem
    simp [transform, transformString, hdot, pyContains, hmem]
  · intro p n nb hdot
    simp [transform, transformString, hdot, pyContains]

/-- Witness for the amended C4 at `p = "a"`, `items = []`, both flag values,
and at the int input `3`. -/
theorem claim4_witness :
    transform (.sField "a") (.vList []) false = .error (.fieldMissing "a") ∧
    transform (.sField "a") (.vInt 3) true
      = .error (.pyTypeError "argument of type int is not iterable") := by
  constructor
  · have h := claim4_single_segment_amended.1 "a" [] false (by decide) (by rfl)
    simpa using h
  · exact claim4_single_segment_amended.2 "a" 3 true (by decide)

/-- C7 counterexample: `split` on a field whose resolved value is the int
`1` raises a native `AttributeError` (there is no `int.split`), and `mask`
raises a native `TypeError` from `re.sub` — neither is the taxonomy
type-mismatch error the claim promises, and neither error names the
field. -/
theorem claim7_counterexample :
    transform (.sFunc (split "a" ",")) (.vDict [("a", .vInt 1)]) false
      = .error (.pyAttributeError "split") ∧
    transform (.sFunc (mask (fun _ _ s => s) "a" "x" "y"))
      (.vDict [("a", .vInt 1)]) false
      = .error (.pyTypeError "expected string or bytes-like object") := by
  constructor
  · simp [transform, split, transformString, pyContains, pyIndexStr, alookup]
  · simp [transform, mask, transformString, pyContains, pyIndexStr, alookup]

/-- C7 amended: when the field path resolves but to a non-string value,
`split` fails with a native untyped `AttributeError` (missing `split`
attribute) and `mask` with the native `TypeError` raised by `re.sub`; the
taxonomy type-mismatch error is not raised and the field is not named. -/
theorem claim7_nonstring_amended (reSub : String → String → String → String)
    (f delim pat rep : String) (d : Value) (v : Value) (amb : Bool)
    (h : transform (.sField f) d false = .ok [(f, v)]) (hv : v.isStr = false) :
    transform (.sFunc (split f delim)) d amb = .error (.pyAttributeError "split") ∧
    transform (.sFunc (mask reSub f pat rep)) d amb
      = .error (.pyTypeError "expected string or bytes-like object") := by
  constructor
  · simp only [transform, split, h, pyIndexStr, alookup, if_pos rfl]
    cases v with
    | vStr s => simp [Value.isStr] at hv
    | vNull => rfl
    | vInt n => rfl
    | vList items => rfl
    | vDict es => rfl
  · simp only [transform, mask, h, pyIndexStr, alookup, if_pos rfl]
    cases v with
    | vStr s => simp [Value.isStr] at hv
    | vNull => rfl
    | vInt n => rfl
    | vList items => rfl
    | vDict es => rfl

/-- Witness for the amended C7 at field `"a"` resolving to the list `[]`. -/
theorem claim7_witness :
    transform (.sFunc (split "a" ",")) (.vDict [("a", .vList [])]) true
      = .error (.pyAttributeError "split") ∧
    transform (.sFunc (mask (fun _ _ s => s) "a" "x" "y"))
      (.vDict [("a", .vList [])]) true
      = .error (.pyTypeError "expected string or bytes-like object") :=
  claim7_nonstring_amended (fun _ _ s => s) "a" "," "x" "y"
    (.vDict [("a", .vList [])]) (.vList []) true
    (by simp [transform, transformString, pyContains, pyIndexStr, alookup]) (by rfl)

/-- C9 counterexample: under nullable mode, the `ObjectSpec` entry
`{"a": "b"}` against `{}` has its key-spec resolve to the nullable-null map
`{"a": null}`; the value-spec `"b"` is then evaluated against `null` and
the call fails with a native `TypeError` instead of propagating the
nullable-null outcome. -/
theorem claim9_counterexample :
    transform (.sObj [(.sField "a", .sField "b")]) (.vDict []) true
      = .error (.pyTypeError "argument of type NoneType is not iterable") := by
  simp [transform, transformDict, transformDictEntries, transformString,
    pyContains, alookup, specIndex, Value.isDict]

/-- C9 amended: composite shapes do propagate child errors unchanged, and a
`ListSpec` propagates a child's nullable-null result into the merged output
unchanged; but an `ObjectSpec` entry whose key-spec resolves to null under
nullable mode feeds `null` to its value-spec, whose evaluation then fails
(a native `TypeError` for a plain-name value-spec) rather than propagating
the nullable-null outcome. -/
theorem claim9_propagation_amended :
    (∀ (k vs : TransformSpec) (rest : List (TransformSpec × TransformSpec))
        (d : Value) (nb : Bool) (e : Err),
        d.isDict = true → transform k d nb = .error e →
        transform (.sObj ((k, vs) :: rest)) d nb = .error e) ∧
    (∀ (s : TransformSpec) (rest : List TransformSpec) (d : Value) (nb : Bool)
        (e : Err),
        d.isDict = true → transform s d nb = .error e →
        transform (.sList (s :: rest)) d nb = .error e) ∧
    (∀ (s : TransformSpec) (d : Value) (nb : Bool) (key : String),
        d.isDict = true → transform s d nb = .ok [(key, .vNull)] →
        transform (.sList [s]) d nb = .ok [(key, .vNull)]) ∧
    (∀ (p q : String) (es : List (String × Value)),
        '.' ∉ p.data → '.' ∉ q.data → alookup p es = none →
        transform (.sObj [(.sField p, .sField q)]) (.vDict es) true
          = .error (.pyTypeError "argument of type NoneType is not iterable")) := by
  refine ⟨?_, ?_, ?_, ?_⟩
  · intro k vs rest d nb e hd hk
    simp [transform, transformDict, transformDictEntries, hd, hk]
  · intro s rest d nb e hd hs
    simp [transform, transformList, transformListItems, hd, hs]
  · intro s d nb key hd hs
    simp [transform, transformList, transformListItems, hd, hs, updateRM, insertRM]
  · intro p q es hp hq hmiss
    simp [transform, transformDict, transformDictEntries, Value.isDict,
      transformString, hp, hq, pyContains, hmiss, specIndex, alookup]

/-- Witness for the amended C9: a failing child error propagates out of an
`ObjectSpec` and a `ListSpec` unchanged; a nullable-null child map passes
through a `ListSpec` unchanged; and the null-key object case at
`p = "a"`, `q = "b"`, input `{}`. -/
theorem claim9_witness :
    transform (.sObj [(.sField "a.b", .sField "c")]) (.vDict [("a", .vInt 1)]) false
      = .error (.typeMismatch "b" "dict") ∧
    transform (.sList [.sField "x"]) (.vDict []) true = .ok [("x", .vNull)] ∧
    transform (.sObj [(.sField "a", .sField "b")]) (.vDict []) true
      = .error (.pyTypeError "argument of type NoneType is not iterable") := by
  refine ⟨?_, ?_, ?_⟩
  · exact claim9_propagation_amended.1 (.sField "a.b") (.sField "c") [] _ false
      (.typeMismatch "b" "dict") (by rfl)
      (by simp [transform, transformString, walkSteps, splitDots, splitDotsAux, alookup])
  · exact claim9_propagation_amended.2.2.1 (.sField "x") (.vDict []) true "x" (by rfl)
      (by simp [transform, transformString, pyContains, alookup])
  · exact claim9_propagation_amended.2.2.2 "a" "b" [] (by decide) (by decide) (by rfl)

/-- C3: an `ObjectSpec` entry first evaluates its key-spec against the
input, then evaluates its value-spec against the value extracted at the
key-spec's resolved destination key, and merges the result into the
accumulator; in particular
`transform({"a.b": "c"}, {"a": {"b": {"c": 5}}}, false) = {"c": 5}`. -/
theorem claim3_object_composition :
    (∀ (p : String) (vs : TransformSpec) (es : List (String × Value)) (nb : Bool)
        (m : ResultMap) (x : Value) (r : ResultMap),
        transform (.sField p) (.vDict es) nb = .ok m →
        alookup p m = some x →
        transform vs x nb = .ok r →
        transform (.sObj [(.sField p, vs)]) (.vDict es) nb = .ok (updateRM [] r)) ∧
    transform (.sObj [(.sField "a.b", .sField "c")])
      (.vDict [("a", .vDict [("b", .vDict [("c", .vInt 5)])])]) false
      = .ok [("c", .vInt 5)] := by
  constructor
  · intro p vs es nb m x r h1 h2 h3
    rw [transform_sField] at h1
    have hstep : transform (.sObj [(.sField p, vs)]) (.vDict es) nb
        = transformDictEntries [(.sField p, vs)] (.vDict es) nb [] := by
      simp [transform, transformDict, Value.isDict]
    rw [hstep, transformDictEntries]
    rw [transform_sField, h1]
    simp only [specIndex, h2, h3, transformDictEntries]
  · simp [transform, transformDict, transformDictEntries, transformString,
      splitDots, splitDotsAux, walkSteps, pyContains, pyIndexStr, alookup,
      specIndex, Value.isDict, updateRM, insertRM]

/-- Witness for C3: key-spec `"a"` resolving to `{"b": 2}`, value-spec
`"b"`. -/
theorem claim3_witness :
    transform (.sObj [(.sField "a", .sField "b")])
      (.vDict [("a", .vDict [("b", .vInt 2)])]) false
      = .ok (updateRM [] [("b", .vInt 2)]) :=
  claim3_object_composition.1 "a" (.sField "b")
    [("a", .vDict [("b", .vInt 2)])] false
    [("a", .vDict [("b", .vInt 2)])] (.vDict [("b", .vInt 2)]) [("b", .vInt 2)]
    (by simp [transform, transformString, pyContains, pyIndexStr, alookup])
    (by rfl)
    (by simp [transform, transformString, pyContains, pyIndexStr, alookup])

/-- C6: item-specs of a `ListSpec` are evaluated in declaration order
against the same unmodified input and merged last-write-wins; for
item-specs whose result maps have pairwise disjoint keys the merged result
is independent of item order (as a Python dict, i.e. up to lookup), and
`transform(["a", "a"], {"a": 1}, nullable)` deterministically produces
`{"a": 1}` for either nullable value. -/
theorem claim6_list_order :
    (∀ (items₁ items₂ : List TransformSpec) (es : List (String × Value))
        (nb : Bool) (r₁ r₂ : ResultMap),
        items₁.Perm items₂ →
        items₁.Pairwise (fun s t => ∀ ms mt,
          transform s (.vDict es) nb = .ok ms →
          transform t (.vDict es) nb = .ok mt →
          ∀ k, alookup k ms = none ∨ alookup k mt = none) →
        transform (.sList items₁) (.vDict es) nb = .ok r₁ →
        transform (.sList items₂) (.vDict es) nb = .ok r₂ →
        RMEquiv r₁ r₂) ∧
    transform (.sList [.sField "a", .sField "a"]) (.vDict [("a", .vInt 1)]) false
      = .ok [("a", .vInt 1)] ∧
    transform (.sList [.sField "a", .sField "a"]) (.vDict [("a", .vInt 1)]) true
      = .ok [("a", .vInt 1)] := by
  refine ⟨?_, ?_, ?_⟩
  · intro items₁ items₂ es nb r₁ r₂ hp hpw h1 h2
    have h1' : transformListItems items₁ (.vDict es) nb [] = .ok r₁ := by
      simpa [transform, transformList, Value.isDict] using h1
    have h2' : transformListItems items₂ (.vDict es) nb [] = .ok r₂ := by
      simpa [transform, transformList, Value.isDict] using h2
    have hok := transformListItems_ok_each items₁ (.vDict es) nb [] r₁ h1'
    have hd : items₁.Pairwise (DisjointRes (.vDict es) nb) := by
      refine List.Pairwise.imp_of_mem ?_ hpw
      intro a b ha hb hab k
      obtain ⟨ma, hma⟩ := hok a ha
      obtain ⟨mb, hmb⟩ := hok b hb
      have := hab ma mb hma hmb k
      rcases this with h | h
      · left
        simp [resOf, hma, h]
      · right
        simp [resOf, hmb, h]
    rw [transformListItems_fold items₁ (.vDict es) nb [] r₁ h1',
      transformListItems_fold items₂ (.vDict es) nb [] r₂ h2']
    exact foldUpd_perm (.vDict es) nb hp hd []
  · simp [transform, transformList, transformListItems, transformString,
      pyContains, pyIndexStr, alookup, Value.isDict, updateRM, insertRM]
  · simp [transform, transformList, transformListItems, transformString,
      pyContains, pyIndexStr, alookup, Value.isDict, updateRM, insertRM]

/-- Witness for C6: swapping the two distinct-key item-specs `"a"`, `"b"`
gives dict-equal results. -/
theorem claim6_witness :
    RMEquiv [("a", .vInt 1), ("b", .vInt 2)] [("b", .vInt 2), ("a", .vInt 1)] := by
  have hperm : ([TransformSpec.sField "a", TransformSpec.sField "b"]).Perm
      [TransformSpec.sField "b", TransformSpec.sField "a"] :=
    List.Perm.swap (TransformSpec.sField "b") (TransformSpec.sField "a") []
  have hpw : ([TransformSpec.sField "a", TransformSpec.sField "b"]).Pairwise
      (fun s t => ∀ ms mt,
        transform s (.vDict [("a", .vInt 1), ("b", .vInt 2)]) false = .ok ms →
        transform t (.vDict [("a", .vInt 1), ("b", .vInt 2)]) false = .ok mt →
        ∀ k, alookup k ms = none ∨ alookup k mt = none) := by
    refine List.pairwise_cons.mpr ⟨?_, List.pairwise_singleton _ _⟩
    intro t ht ms mt hms hmt k
    have ht' : t = .sField "b" := by simpa using ht
    subst ht'
    have hms' : ms = [("a", Value.vInt 1)] := by
      have := hms
      simp [transform, transformString, pyContains, pyIndexStr, alookup] at this
      exact this.symm
    have hmt' : mt = [("b", Value.vInt 2)] := by
      have := hmt
      simp [transform, transformString, pyContains, pyIndexStr, alookup] at this
      exact this.symm
    subst hms'
    subst hmt'
    by_cases hk : k = "a"
    · right
      simp [alookup, hk]
    · left
      simp [alookup, hk]
  exact claim6_list_order.1 [.sField "a", .sField "b"] [.sField "b", .sField "a"]
    [("a", .vInt 1), ("b", .vInt 2)] false
    [("a", .vInt 1), ("b", .vInt 2)] [("b", .vInt 2), ("a", .vInt 1)]
    hperm hpw
    (by simp [transform, transformList, transformListItems, transformString,
      pyContains, pyIndexStr, alookup, Value.isDict, updateRM, insertRM])
    (by simp [transform, transformList, transformListItems, transformString,
      pyContains, pyIndexStr, alookup, Value.isDict, updateRM, insertRM])

end TransformPy
